import Mathlib

/-!
# GrocerySaver backend — verification of the list reconciler and auth flows

Shallow embedding of the GrocerySaver Express/Mongoose backend
(`backend/server.js`, `backend/authenticator.js`, `backend/DB_Models/list.js`,
`backend/DB_Models/category.js`) as executable Lean definitions, together with
theorems settling the specification claims about it.

Modelling conventions:
* Mongo ObjectIds are modelled as `Nat`.
* JS numbers occurring as item quantities are modelled as `Int` (the claims
  only concern sign tests and addition).
* `String.prototype.trim` is modelled by `jsTrim` (drop whitespace from both
  ends); `String.prototype.toLowerCase` by `jsToLower`.
* A request body item descriptor (an arbitrary JSON value) is modelled by the
  inductive `Descriptor`: a JSON string, a JSON object (whose `name` field may
  be absent and whose `quantity` / `unit` fields may be absent), the JSON
  `null` value (for which `typeof null === 'object'` holds and reading
  `.name` throws a `TypeError`), and `other` for values that are neither
  strings nor objects (numbers, booleans).
* Fallible code is modelled with `Except`; an HTTP handler is a function from
  the database state and request data to a response paired with the new
  database state (`list.save()` is the only point at which the store changes).
-/

set_option linter.unusedVariables false

namespace GrocerySaver

/-- JS `String.prototype.trim` on the underlying character list: drop
whitespace from the front, then from the back. -/
def trimChars (cs : List Char) : List Char :=
  List.rdropWhile Char.isWhitespace (cs.dropWhile Char.isWhitespace)

/-- JS `String.prototype.trim`. -/
def jsTrim (s : String) : String :=
  ⟨trimChars s.data⟩

/-- JS `String.prototype.toLowerCase` (the names this backend compares are
ASCII; modelled as a character-wise lowercase map). -/
def jsToLower (s : String) : String :=
  ⟨s.data.map Char.toLower⟩

/-- An item embedded in a list document (`DB_Models/list.js`, `items` array).
`id` models the Mongo subdocument `_id`. -/
structure Item where
  id : Nat
  name : String
  quantity : Int
  unit : String
  isCompleted : Bool
deriving Repr, DecidableEq

/-- A list document (`DB_Models/list.js`). -/
structure GroceryList where
  id : Nat
  name : String
  categoryId : Nat
  userId : Nat
  items : List Item
deriving Repr, DecidableEq

/-- A category document (`DB_Models/category.js`). -/
structure Category where
  id : Nat
  name : String
  userId : Nat
deriving Repr, DecidableEq

/-- The document store: the `categories` and `lists` collections. -/
structure DB where
  categories : List Category
  lists : List GroceryList
deriving Repr, DecidableEq

/-- `itemNames.some((name, idx) => itemNames.indexOf(name) !== idx)` from the
`listSchema.pre('save')` hook: does the list of names contain a repeat? -/
def hasDuplicates : List String → Bool
  | [] => false
  | x :: xs => xs.contains x || hasDuplicates xs

/-- The `listSchema.pre('save')` hook (`DB_Models/list.js` lines 18-27): the
save goes through iff the items' *lowercased* names (the hook does NOT trim)
contain no repeat. -/
def listPreSaveHookOk (l : GroceryList) : Bool :=
  !hasDuplicates (l.items.map (fun it => jsToLower it.name))

/-- `list.save()` writing back a loaded document: replace the row with the
same `_id`.  (Used only after the pre-save hook passed.) -/
def saveList (db : DB) (l : GroceryList) : DB :=
  { db with lists := db.lists.map (fun r => if r.id == l.id then l else r) }

/-- A JSON item descriptor arriving in a request body. -/
inductive Descriptor where
  | str (s : String)
  | obj (name : Option String) (quantity : Option Int) (unit : Option String)
  | nullVal
  | other
deriving Repr, DecidableEq

/-- `newItem.quantity > 0 ? newItem.quantity : 1` (an absent quantity compares
as not-greater-than-zero in JS). -/
def qtyOrOne : Option Int → Int
  | some v => if 0 < v then v else 1
  | none => 1

/-- `newItem.unit || 'pcs'` (JS falsiness: absent or empty string). -/
def unitOrPcs : Option String → String
  | some u => if u = "" then "pcs" else u
  | none => "pcs"

/-- `newItem.quantity <= 0` (false when the quantity is absent: in JS
`undefined <= 0` is `false`). -/
def qtyNonPos : Option Int → Bool
  | some v => decide (v ≤ 0)
  | none => false

/-- The descriptor-formatting step of the merge endpoint
(`PATCH /api/updatelist/:listID`, `server.js` lines 308-322).
* a string becomes a trimmed bare item with the defaults;
* an object with a truthy `name` is normalized (name trimmed, quantity
  defaulted to 1 unless positive, unit defaulted to `"pcs"`, completion set
  iff the supplied quantity is non-positive);
* an object without a truthy `name`, or a non-string non-object value, is
  skipped (`continue`), modelled as `.ok none`;
* `null` satisfies `typeof null === 'object'` and then `null.name` throws a
  `TypeError`, modelled as `.error ()`.
New items receive Mongo subdocument ids on insertion; no claim depends on
them, so formatted items carry id 0. -/
def formatDescriptor : Descriptor → Except Unit (Option Item)
  | .str s => .ok (some { id := 0, name := jsTrim s, quantity := 1, unit := "pcs", isCompleted := false })
  | .obj name q u =>
    match name with
    | some n =>
      if n = "" then .ok none
      else .ok (some { id := 0, name := jsTrim n, quantity := qtyOrOne q,
                       unit := unitOrPcs u, isCompleted := qtyNonPos q })
    | none => .ok none
  | .nullVal => .error ()
  | .other => .ok none

/-- A unit-conflict record pushed onto `unitConflicts`. -/
structure Conflict where
  name : String
  existingUnit : String
  newUnit : String
deriving Repr, DecidableEq

/-- `existingItems[exactMatchIndex].quantity += formatted.quantity`: add `q`
to the quantity of the first item satisfying `p`. -/
def addQtyAtFirst (p : Item → Bool) (q : Int) : List Item → List Item
  | [] => []
  | it :: rest =>
    if p it then { it with quantity := it.quantity + q } :: rest
    else it :: addQtyAtFirst p q rest

/-- One iteration of the reconciliation loop of the merge endpoint
(`server.js` lines 308-350), acting on the pair
(current `existingItems`, current `unitConflicts`). -/
def mergeOne (acc : List Item × List Conflict) (d : Descriptor) :
    Except Unit (List Item × List Conflict) :=
  match formatDescriptor d with
  | .error e => .error e
  | .ok none => .ok acc
  | .ok (some f) =>
    let existingItems := acc.1
    let conflicts := acc.2
    let nameLower := jsToLower f.name
    let exact := fun it => (jsToLower (jsTrim it.name) == nameLower) && (it.unit == f.unit)
    let confl := fun it => (jsToLower (jsTrim it.name) == nameLower) && (it.unit != f.unit)
    if existingItems.any exact then
      .ok (addQtyAtFirst exact f.quantity existingItems, conflicts)
    else
      match existingItems.find? confl with
      | some it => .ok (existingItems, conflicts ++ [{ name := f.name, existingUnit := it.unit, newUnit := f.unit }])
      | none => .ok (existingItems ++ [f], conflicts)

/-- The whole reconciliation loop (`for (let newItem of items) { ... }`). -/
def reconcile (acc : List Item × List Conflict) :
    List Descriptor → Except Unit (List Item × List Conflict)
  | [] => .ok acc
  | d :: ds =>
    match mergeOne acc d with
    | .error e => .error e
    | .ok acc2 => reconcile acc2 ds

/-- Responses of `PATCH /api/updatelist/:listID`. -/
inductive UpdateListRes where
  | badRequest
  | notFound
  | conflictError (conflicts : List Conflict)
  | serverError
  | ok (l : GroceryList)
deriving Repr, DecidableEq

/-- `PATCH /api/updatelist/:listID` (`server.js` lines 289-375).  Note that
the list is located with `List.findById(listID)`: the authenticated user id
is available as `req.user.userId` but takes no part in the query. -/
def updateListHandler (db : DB) (userId listID : Nat) (items : List Descriptor) :
    UpdateListRes × DB :=
  if items.isEmpty then (.badRequest, db)
  else
    match db.lists.find? (fun l => l.id == listID) with
    | none => (.notFound, db)
    | some l =>
      match reconcile (l.items, []) items with
      | .error _ => (.serverError, db)
      | .ok (newItems, conflicts) =>
        if !conflicts.isEmpty then (.conflictError conflicts, db)
        else
          let l2 := { l with items := newItems }
          if listPreSaveHookOk l2 then (.ok l2, saveList db l2)
          else (.serverError, db)

/-- Responses of `PATCH /api/items/:itemId/toggle`. -/
inductive ToggleRes where
  | notFound
  | serverError
  | ok (updatedItem : Item)
deriving Repr, DecidableEq

/-- `PATCH /api/items/:itemId/toggle` (`server.js` lines 264-284).  The list
is located with `List.findOne({ 'items._id': itemId })` — no user filter. -/
def toggleItemHandler (db : DB) (userId itemId : Nat) : ToggleRes × DB :=
  match db.lists.find? (fun l => l.items.any (fun it => it.id == itemId)) with
  | none => (.notFound, db)
  | some l =>
    let newItems := l.items.map
      (fun it => if it.id == itemId then { it with isCompleted := !it.isCompleted } else it)
    let l2 := { l with items := newItems }
    match newItems.find? (fun it => it.id == itemId) with
    | none => (.serverError, db)
    | some toggled =>
      if listPreSaveHookOk l2 then (.ok toggled, saveList db l2) else (.serverError, db)

/-- Responses of `DELETE /api/categories/:categoryId` (it answers 200 even
when no such category exists; 500 arises only from store failures, which the
pure model does not produce). -/
inductive DeleteCategoryRes where
  | ok
deriving Repr, DecidableEq

/-- `DELETE /api/categories/:categoryId` (`server.js` lines 128-143):
`List.deleteMany({ categoryId })` then `Category.findByIdAndDelete` — neither
query mentions the authenticated user. -/
def deleteCategoryHandler (db : DB) (userId categoryId : Nat) : DeleteCategoryRes × DB :=
  let db1 := { db with lists := db.lists.filter (fun l => !(l.categoryId == categoryId)) }
  let db2 := { db1 with categories := db1.categories.filter (fun c => !(c.id == categoryId)) }
  (.ok, db2)

/-- `GET /api/fetch-lists/:categoryId` (`server.js` lines 78-87): returns the
`data` array of `List.find({ categoryId, userId: req.user.userId })`. -/
def fetchListsHandler (db : DB) (userId categoryId : Nat) : List GroceryList :=
  db.lists.filter (fun l => (l.categoryId == categoryId) && (l.userId == userId))

/-- Responses of `DELETE /api/delete-lists/:listId`. -/
inductive DeleteListRes where
  | notFound
  | ok
deriving Repr, DecidableEq

/-- `DELETE /api/delete-lists/:listId` (`server.js` lines 215-231):
`List.findById(listId)` then `List.findByIdAndDelete(listId)` — no user
filter. -/
def deleteListHandler (db : DB) (userId listId : Nat) : DeleteListRes × DB :=
  match db.lists.find? (fun l => l.id == listId) with
  | none => (.notFound, db)
  | some _ => (.ok, { db with lists := db.lists.filter (fun l => !(l.id == listId)) })

/-- The `updatedItem` body of `PATCH /api/updateItem/:listID/:itemID`;
`quantity` is `Option` because the handler checks `quantity == null`. -/
structure UpdatedItem where
  name : String
  quantity : Option Int
  unit : String
deriving Repr, DecidableEq

/-- Responses of `PATCH /api/updateItem/:listID/:itemID`. -/
inductive UpdateItemRes where
  | incomplete
  | listNotFound
  | duplicate
  | itemNotFound
  | serverError
  | ok (l : GroceryList)
deriving Repr, DecidableEq

/-- `PATCH /api/updateItem/:listID/:itemID` (`server.js` lines 381-440).
The duplicate check runs only when the trimmed-lowercased new name differs
from the trimmed-lowercased current name; the stored name is the *raw*
`updatedItem.name`.  `List.findById(listID)` — no user filter. -/
def updateItemHandler (db : DB) (userId listID itemID : Nat) (body : Option UpdatedItem) :
    UpdateItemRes × DB :=
  match body with
  | none => (.incomplete, db)
  | some u =>
    if u.name == "" || u.quantity.isNone || u.unit == "" then (.incomplete, db)
    else
      match db.lists.find? (fun l => l.id == listID) with
      | none => (.listNotFound, db)
      | some l =>
        let currentItem := l.items.find? (fun it => it.id == itemID)
        let normalizedNewName := jsToLower (jsTrim u.name)
        let normalizedCurrentName := currentItem.map (fun it => jsToLower (jsTrim it.name))
        let dupCheckNeeded := !(normalizedCurrentName == some normalizedNewName)
        let hasDuplicate := l.items.any
          (fun it => (!(it.id == itemID)) && (jsToLower (jsTrim it.name) == normalizedNewName))
        if dupCheckNeeded && hasDuplicate then (.duplicate, db)
        else
          match currentItem with
          | none => (.itemNotFound, db)
          | some _ =>
            let newItems := l.items.map
              (fun it => if it.id == itemID then
                { it with name := u.name, quantity := u.quantity.getD 0, unit := u.unit }
              else it)
            let l2 := { l with items := newItems }
            if listPreSaveHookOk l2 then (.ok l2, saveList db l2) else (.serverError, db)

/-- Errors thrown by the item-formatting `map` of the list-creation endpoint:
`throw new Error("Invalid item format")` for a non-string non-object (or an
object without a truthy name), and a `TypeError` for `null` (whose message is
not `"Invalid item format"`). -/
inductive CreateErr where
  | invalidFormat
  | typeError
deriving Repr, DecidableEq

/-- The item-formatting `map` of `POST /api/categories/:categoryId/lists`
(`server.js` lines 160-173).  Unlike the merge endpoint it does NOT trim
names, and an invalid shape throws instead of being skipped. -/
def formatItemCreate : Descriptor → Except CreateErr Item
  | .str s => .ok { id := 0, name := s, quantity := 1, unit := "pcs", isCompleted := false }
  | .obj name q u =>
    match name with
    | some n =>
      if n = "" then .error .invalidFormat
      else .ok { id := 0, name := n, quantity := qtyOrOne q,
                 unit := unitOrPcs u, isCompleted := qtyNonPos q }
    | none => .error .invalidFormat
  | .nullVal => .error .typeError
  | .other => .error .invalidFormat

/-- `items.map(...)` throwing at the first invalid element. -/
def formatItemsCreate (ds : List Descriptor) : Except CreateErr (List Item) :=
  ds.mapM formatItemCreate

/-- Responses of `POST /api/categories/:categoryId/lists`. -/
inductive CreateListRes where
  | badRequestMissing
  | invalidFormat
  | duplicate
  | serverError
  | ok (l : GroceryList)
deriving Repr, DecidableEq

/-- `POST /api/categories/:categoryId/lists` (`server.js` lines 149-209).
A thrown `"Invalid item format"` maps to 400, a `TypeError` (from a `null`
item) and a pre-save-hook rejection map to 500, and the unique
`(name, userId)` index maps to 409.  `newId` stands for the fresh ObjectId
minted by the store. -/
def createListHandler (db : DB) (userId categoryId : Nat) (name : String)
    (items : List Descriptor) (newId : Nat) : CreateListRes × DB :=
  if name = "" ∨ items.isEmpty then (.badRequestMissing, db)
  else
    match formatItemsCreate items with
    | .error .invalidFormat => (.invalidFormat, db)
    | .error .typeError => (.serverError, db)
    | .ok formattedItems =>
      let l : GroceryList :=
        { id := newId, name := name, categoryId := categoryId, userId := userId,
          items := formattedItems }
      if !listPreSaveHookOk l then (.serverError, db)
      else if db.lists.any (fun r => (r.name == name) && (r.userId == userId)) then
        (.duplicate, db)
      else (.ok l, { db with lists := db.lists ++ [l] })

/-! ## Auth manager (`authenticator.js`) -/

/-- The payload of a signed JWT as this backend uses them: a user id, and an
email claim that is present only when the signing site supplied one. -/
structure TokenPayload where
  userId : Nat
  email : Option String
deriving Repr, DecidableEq

/-- A signed token.  `secret` records which server secret signed it, `valid`
whether the signature still verifies (false once tampered with), `expired`
whether its lifetime has elapsed at verification time. -/
structure Jwt where
  payload : TokenPayload
  secret : Nat
  valid : Bool
  expired : Bool
deriving Repr, DecidableEq

/-- The two independent server secrets. -/
def ACCESS_TOKEN_SECRET : Nat := 0

def REFRESH_TOKEN_SECRET : Nat := 1

/-- `jwt.sign(payload, secret, ...)`: a freshly signed, unexpired token. -/
def jwtSign (p : TokenPayload) (secret : Nat) : Jwt :=
  { payload := p, secret := secret, valid := true, expired := false }

/-- `jwt.verify(token, secret)`: succeeds iff the token was signed with this
secret, is untampered, and is unexpired; otherwise it throws (`none`). -/
def jwtVerify (t : Jwt) (secret : Nat) : Option TokenPayload :=
  if (t.secret == secret) && t.valid && !t.expired then some t.payload else none

/-- The access token minted by `POST /signin` (`authenticator.js` lines
168-172): payload `{ userId: user._id, email: user.email }`. -/
def signinAccessToken (uid : Nat) (email : String) : Jwt :=
  jwtSign { userId := uid, email := some email } ACCESS_TOKEN_SECRET

/-- The refresh token minted by `POST /signin` (`authenticator.js` lines
174-178): payload `{ userId: user._id }`. -/
def signinRefreshToken (uid : Nat) : Jwt :=
  jwtSign { userId := uid, email := none } REFRESH_TOKEN_SECRET

/-- Response of `GET /refresh-token`: HTTP status, the access token in the
body (if any), and the `Set-Cookie` refresh token (none — this endpoint never
rotates the cookie). -/
structure RefreshRes where
  status : Nat
  accessToken : Option Jwt
  setCookie : Option Jwt
deriving Repr, DecidableEq

/-- `GET /refresh-token` (`authenticator.js` lines 213-241): 401 when the
`refreshToken` cookie is missing, 403 when verification throws, otherwise a
fresh access token signed over `{ userId: decoded.userId }` (no email). -/
def refreshTokenHandler (cookie : Option Jwt) : RefreshRes :=
  match cookie with
  | none => { status := 401, accessToken := none, setCookie := none }
  | some t =>
    match jwtVerify t REFRESH_TOKEN_SECRET with
    | none => { status := 403, accessToken := none, setCookie := none }
    | some decoded =>
      { status := 200,
        accessToken := some (jwtSign { userId := decoded.userId, email := none } ACCESS_TOKEN_SECRET),
        setCookie := none }

/-! ## Helper lemmas -/

theorem dropWhile_concat_neg {α : Type} (p : α → Bool) (x : α) (hx : p x = false)
    (l : List α) : (l ++ [x]).dropWhile p = l.dropWhile p ++ [x] := by
  induction l with
  | nil => simp [List.dropWhile, hx]
  | cons a t ih =>
    by_cases h : p a
    · simp [List.dropWhile_cons, h, ih]
    · simp [List.dropWhile_cons, h]

theorem rdropWhile_cons_neg {α : Type} (p : α → Bool) (a : α) (t : List α)
    (h : p a = false) : List.rdropWhile p (a :: t) = a :: List.rdropWhile p t := by
  simp only [List.rdropWhile, List.reverse_cons]
  rw [dropWhile_concat_neg p a h t.reverse]
  simp

theorem dropWhile_rdropWhile {α : Type} (p : α → Bool) (l : List α)
    (h : l.dropWhile p = l) : (List.rdropWhile p l).dropWhile p = List.rdropWhile p l := by
  cases l with
  | nil => simp
  | cons a t =>
    have ha : p a = false := by
      have := List.dropWhile_eq_self_iff.mp h (by simp)
      simpa using this
    rw [rdropWhile_cons_neg p a t ha, List.dropWhile_cons, ha]
    simp

theorem trimChars_idem (cs : List Char) : trimChars (trimChars cs) = trimChars cs := by
  unfold trimChars
  have h1 : (cs.dropWhile Char.isWhitespace).dropWhile Char.isWhitespace
      = cs.dropWhile Char.isWhitespace := List.dropWhile_idempotent _ _
  have h2 := dropWhile_rdropWhile Char.isWhitespace (cs.dropWhile Char.isWhitespace) h1
  rw [h2, List.rdropWhile_idempotent]

theorem jsTrim_idem (s : String) : jsTrim (jsTrim s) = jsTrim s :=
  congrArg String.mk (trimChars_idem s.data)

theorem hasDuplicates_eq_false_iff (l : List String) :
    hasDuplicates l = false ↔ l.Nodup := by
  induction l with
  | nil => simp [hasDuplicates]
  | cons x xs ih =>
    simp [hasDuplicates, List.contains, List.elem_iff, List.nodup_cons, ih]

/-! ## Claims -/

/-- C1: the claim says every mutating endpoint (toggle item, merge items into
a list, delete category, delete list, update single item) filters its lookup
query by the authenticated user's id, so that user A can never read or mutate
user B's data.  The code violates this: below, every stored document belongs
to user 2, every request is authenticated as user 1, and each of the five
endpoints locates and mutates user 2's data and reports success. -/
theorem C1_cross_user_mutation :
    let db : DB := ⟨[⟨5, "Veg", 2⟩], [⟨1, "Weekly", 5, 2, [⟨10, "Milk", 1, "pcs", false⟩]⟩]⟩
    toggleItemHandler db 1 10 =
      (.ok ⟨10, "Milk", 1, "pcs", true⟩,
        ⟨[⟨5, "Veg", 2⟩], [⟨1, "Weekly", 5, 2, [⟨10, "Milk", 1, "pcs", true⟩]⟩]⟩)
    ∧ updateListHandler db 1 1 [Descriptor.str "Bread"] =
      (.ok ⟨1, "Weekly", 5, 2, [⟨10, "Milk", 1, "pcs", false⟩, ⟨0, "Bread", 1, "pcs", false⟩]⟩,
        ⟨[⟨5, "Veg", 2⟩],
          [⟨1, "Weekly", 5, 2, [⟨10, "Milk", 1, "pcs", false⟩, ⟨0, "Bread", 1, "pcs", false⟩]⟩]⟩)
    ∧ deleteCategoryHandler db 1 5 = (.ok, ⟨[], []⟩)
    ∧ deleteListHandler db 1 1 = (.ok, ⟨[⟨5, "Veg", 2⟩], []⟩)
    ∧ updateItemHandler db 1 1 10 (some ⟨"Milk", some 5, "kg"⟩) =
      (.ok ⟨1, "Weekly", 5, 2, [⟨10, "Milk", 5, "kg", false⟩]⟩,
        ⟨[⟨5, "Veg", 2⟩], [⟨1, "Weekly", 5, 2, [⟨10, "Milk", 5, "kg", false⟩]⟩]⟩) := by
  refine ⟨?_, ?_, ?_, ?_, ?_⟩ <;> decide

/-- C3 counterexample: the claim says the save-time guard rejects a list in
which two items' *trimmed* lowercased names coincide.  The hook lowercases
but does not trim: the items `"milk"` and `"milk "` have equal
trimmed-lowercased names, yet the hook accepts the list. -/
theorem C3_counterexample :
    jsToLower (jsTrim "milk") = jsToLower (jsTrim "milk ")
    ∧ listPreSaveHookOk
        ⟨1, "L", 1, 1, [⟨10, "milk", 1, "pcs", false⟩, ⟨11, "milk ", 1, "L", false⟩]⟩ = true := by
  exact ⟨rfl, rfl⟩

/-- C3 amended: the `pre('save')` guard accepts a list exactly when the
items' *lowercased* (not trimmed) names are pairwise distinct; a persisted
list therefore never contains two items whose lowercased names coincide. -/
theorem C3_save_guard (l : GroceryList) :
    listPreSaveHookOk l = true ↔ (l.items.map (fun it => jsToLower it.name)).Nodup := by
  simp [listPreSaveHookOk, hasDuplicates_eq_false_iff]

/-- C7: the refresh endpoint returns 401 when the `refreshToken` cookie is
missing; 403 when the cookie's token is tampered with (signature invalid) or
expired; and for a valid token, 200 with a fresh access token whose payload
user id equals the refresh token's user id, without rotating the refresh
cookie. -/
theorem C7_refresh_token_flow :
    refreshTokenHandler none = ⟨401, none, none⟩
    ∧ (∀ t : Jwt, t.valid = false ∨ t.expired = true →
        refreshTokenHandler (some t) = ⟨403, none, none⟩)
    ∧ (∀ t : Jwt, t.secret = REFRESH_TOKEN_SECRET → t.valid = true → t.expired = false →
        refreshTokenHandler (some t) =
          ⟨200, some (jwtSign ⟨t.payload.userId, none⟩ ACCESS_TOKEN_SECRET), none⟩) := by
  refine ⟨rfl, ?_, ?_⟩
  · rintro t (h | h) <;> simp [refreshTokenHandler, jwtVerify, h]
  · intro t h1 h2 h3
    simp [refreshTokenHandler, jwtVerify, h1, h2, h3, jwtSign]

/-- Witness for C7: a concrete expired token is refused with 403, and the
concrete refresh token for user 7 yields a fresh access token for user 7. -/
theorem C7_refresh_token_flow_witness :
    refreshTokenHandler (some ⟨⟨7, none⟩, REFRESH_TOKEN_SECRET, true, true⟩) = ⟨403, none, none⟩
    ∧ refreshTokenHandler (some (signinRefreshToken 7)) =
        ⟨200, some (jwtSign ⟨7, none⟩ ACCESS_TOKEN_SECRET), none⟩ :=
  ⟨C7_refresh_token_flow.2.1 _ (Or.inr rfl),
   C7_refresh_token_flow.2.2 (signinRefreshToken 7) rfl rfl rfl⟩

/-- C8 counterexample: the claim says every access token the system issues
carries the user id *and the user's email*.  The access token minted by the
refresh endpoint carries no email: refreshing with the signin-issued refresh
token for user 7 yields an access token whose payload email is `none`. -/
theorem C8_counterexample :
    (refreshTokenHandler (some (signinRefreshToken 7))).accessToken =
      some (jwtSign ⟨7, none⟩ ACCESS_TOKEN_SECRET)
    ∧ ((refreshTokenHandler (some (signinRefreshToken 7))).accessToken.map
        (fun t => t.payload.email)) = some none := by
  exact ⟨rfl, rfl⟩

/-- C8 amended: the access token issued at signin carries the user id and the
email in its payload; the access token minted by the refresh endpoint carries
only the user id (its email claim is absent). -/
theorem C8_access_token_payloads :
    (∀ uid email, (signinAccessToken uid email).payload = ⟨uid, some email⟩)
    ∧ (∀ (t : Jwt) (p : TokenPayload), jwtVerify t REFRESH_TOKEN_SECRET = some p →
        (refreshTokenHandler (some t)).accessToken =
          some (jwtSign ⟨p.userId, none⟩ ACCESS_TOKEN_SECRET)) := by
  refine ⟨fun uid email => rfl, fun t p h => ?_⟩
  simp [refreshTokenHandler, h]

/-- Witness for C8 amended: concrete payloads for user 7. -/
theorem C8_access_token_payloads_witness :
    (signinAccessToken 7 "a@b.c").payload = ⟨7, some "a@b.c"⟩
    ∧ (refreshTokenHandler (some (signinRefreshToken 7))).accessToken =
        some (jwtSign ⟨7, none⟩ ACCESS_TOKEN_SECRET) :=
  ⟨C8_access_token_payloads.1 7 "a@b.c",
   C8_access_token_payloads.2 (signinRefreshToken 7) ⟨7, none⟩ rfl⟩

/-- C9: after deleting a category, no list whose `categoryId` equals the
deleted category's id remains in the store, and a subsequent fetch-lists call
for that category (by any user) returns an empty array. -/
theorem C9_cascade_delete (db : DB) (authUser categoryId fetchUser : Nat) :
    ((deleteCategoryHandler db authUser categoryId).2.lists.all
      (fun l => !(l.categoryId == categoryId))) = true
    ∧ fetchListsHandler (deleteCategoryHandler db authUser categoryId).2 fetchUser categoryId
        = [] := by
  constructor
  · simp only [deleteCategoryHandler, List.all_eq_true]
    intro l hl
    exact (List.mem_filter.mp hl).2
  · simp only [deleteCategoryHandler, fetchListsHandler]
    rw [List.filter_eq_nil_iff]
    intro l hl
    have h2 := (List.mem_filter.mp hl).2
    simp at h2 ⊢
    exact fun h => absurd h h2

/-- C10 counterexample: the claim says every batch descriptor that is neither
a string nor an object with a name property is *silently skipped* (no error,
no mutation, remaining descriptors still processed).  A JSON `null`
descriptor is neither a string nor an object with a name property, yet it is
not skipped: `typeof null === 'object'` holds, reading `null.name` throws a
`TypeError`, and the merge request fails with 500 applying nothing — the
well-formed `"Bread"` descriptor in the same batch (which alone would have
been applied) is lost. -/
theorem C10_counterexample :
    updateListHandler ⟨[], [⟨1, "L", 1, 7, []⟩]⟩ 7 1 [Descriptor.nullVal, Descriptor.str "Bread"]
      = (.serverError, ⟨[], [⟨1, "L", 1, 7, []⟩]⟩)
    ∧ updateListHandler ⟨[], [⟨1, "L", 1, 7, []⟩]⟩ 7 1 [Descriptor.str "Bread"]
      = (.ok ⟨1, "L", 1, 7, [⟨0, "Bread", 1, "pcs", false⟩]⟩,
          ⟨[], [⟨1, "L", 1, 7, [⟨0, "Bread", 1, "pcs", false⟩]⟩]⟩) := by
  refine ⟨?_, ?_⟩ <;> decide

/-- C2 counterexample: the claim says renaming an item checks the new name
against all other items by trimmed, lowercased comparison, and in particular
that renaming `"Milk"` to `"milk "` in a list that also contains another item
`"milk"` fails with Conflict and leaves the list unchanged.  In the code the
duplicate check is skipped whenever the trimmed-lowercased new name equals
the trimmed-lowercased *current* name — which holds here — so the rename
succeeds with 200 and the list ends up containing `"milk "` and `"milk"`. -/
theorem C2_counterexample :
    updateItemHandler ⟨[], [⟨1, "L", 1, 1,
        [⟨10, "Milk", 1, "pcs", false⟩, ⟨11, "milk", 1, "pcs", false⟩]⟩]⟩
      1 1 10 (some ⟨"milk ", some 1, "pcs"⟩)
    = (.ok ⟨1, "L", 1, 1, [⟨10, "milk ", 1, "pcs", false⟩, ⟨11, "milk", 1, "pcs", false⟩]⟩,
        ⟨[], [⟨1, "L", 1, 1,
          [⟨10, "milk ", 1, "pcs", false⟩, ⟨11, "milk", 1, "pcs", false⟩]⟩]⟩) := by
  decide

/-- C2 amended: when the trimmed-lowercased new name *differs* from the
trimmed-lowercased current name, the single-item update handler checks it
against all other items of the list by trimmed, lowercased comparison and
fails with Conflict (HTTP 400), leaving the store unchanged, whenever a
collision exists.  (When the two normalized names coincide — e.g. renaming
`"Milk"` to `"milk "` — the check is skipped and the rename is applied.) -/
theorem C2_rename_conflict (db : DB) (userId listID itemID : Nat) (u : UpdatedItem)
    (l : GroceryList) (cur : Item)
    (hu : (u.name == "" || u.quantity.isNone || u.unit == "") = false)
    (hl : db.lists.find? (fun r => r.id == listID) = some l)
    (hcur : l.items.find? (fun it => it.id == itemID) = some cur)
    (hdiff : jsToLower (jsTrim cur.name) ≠ jsToLower (jsTrim u.name))
    (hdup : l.items.any
      (fun it => (!(it.id == itemID)) && (jsToLower (jsTrim it.name) == jsToLower (jsTrim u.name)))
      = true) :
    updateItemHandler db userId listID itemID (some u) = (.duplicate, db) := by
  have hd : (some (jsToLower (jsTrim cur.name)) == some (jsToLower (jsTrim u.name))) = false := by
    simp [hdiff]
  simp only [updateItemHandler, hu, Bool.false_eq_true, if_false, hl, hcur, Option.map_some',
    hd, Bool.not_false, Bool.and_true, Bool.true_and, hdup, if_true]

/-- Witness for C2 amended: renaming item 10 (`"bread"`) to `"Milk  "` in a
list that also contains item 11 (`"milk"`) is refused with Conflict and the
store is unchanged. -/
theorem C2_rename_conflict_witness :
    updateItemHandler ⟨[], [⟨1, "L", 1, 1,
        [⟨10, "bread", 1, "pcs", false⟩, ⟨11, "milk", 1, "pcs", false⟩]⟩]⟩
      1 1 10 (some ⟨"Milk  ", some 2, "pcs"⟩)
    = (.duplicate, ⟨[], [⟨1, "L", 1, 1,
        [⟨10, "bread", 1, "pcs", false⟩, ⟨11, "milk", 1, "pcs", false⟩]⟩]⟩) :=
  C2_rename_conflict _ 1 1 10 ⟨"Milk  ", some 2, "pcs"⟩
    ⟨1, "L", 1, 1, [⟨10, "bread", 1, "pcs", false⟩, ⟨11, "milk", 1, "pcs", false⟩]⟩
    ⟨10, "bread", 1, "pcs", false⟩
    (by decide) (by decide) (by decide) (by decide) (by decide)

/-- C4: whenever the reconciliation of a merge batch records at least one
unit conflict, the merge endpoint answers with the full conflict list and
the store is left exactly as it was: no quantity accumulation and no
appended item is persisted (all-or-nothing batch semantics — the handler
returns before `list.save()` is reached). -/
theorem C4_all_or_nothing (db : DB) (userId listID : Nat) (items : List Descriptor)
    (l : GroceryList) (newItems : List Item) (conflicts : List Conflict)
    (hl : db.lists.find? (fun r => r.id == listID) = some l)
    (hrec : reconcile (l.items, []) items = .ok (newItems, conflicts))
    (hconf : conflicts ≠ []) :
    updateListHandler db userId listID items = (.conflictError conflicts, db) := by
  have hne : items.isEmpty = false := by
    cases items with
    | nil =>
      simp only [reconcile] at hrec
      cases hrec
      exact absurd rfl hconf
    | cons d ds => rfl
  have hce : conflicts.isEmpty = false := by
    cases conflicts with
    | nil => exact absurd rfl hconf
    | cons c cs => rfl
  simp only [updateListHandler, hne, Bool.false_eq_true, if_false, hl, hrec, hce,
    Bool.not_false, if_true]

/-- Witness for C4: a batch with one mergeable descriptor (`"bread"`, new)
and one conflicting descriptor (`"milk"` in gallons against an existing
`"milk"` in litres) applies nothing and reports the conflict. -/
theorem C4_all_or_nothing_witness :
    updateListHandler ⟨[], [⟨1, "L", 1, 7, [⟨10, "milk", 2, "L", false⟩]⟩]⟩ 7 1
      [Descriptor.str "bread", Descriptor.obj (some "milk") (some 3) (some "gal")]
    = (.conflictError [⟨"milk", "L", "gal"⟩],
        ⟨[], [⟨1, "L", 1, 7, [⟨10, "milk", 2, "L", false⟩]⟩]⟩) :=
  C4_all_or_nothing _ 7 1 _
    ⟨1, "L", 1, 7, [⟨10, "milk", 2, "L", false⟩]⟩
    [⟨10, "milk", 2, "L", false⟩, ⟨0, "bread", 1, "pcs", false⟩]
    [⟨"milk", "L", "gal"⟩]
    (by decide) rfl (by decide)

/-- Adding to the first matching item of `pre ++ it :: post` when nothing in
`pre` matches and `it` does: only `it`'s quantity changes. -/
theorem addQtyAtFirst_append (p : Item → Bool) (q : Int) (pre post : List Item) (it : Item)
    (hpre : ∀ x ∈ pre, p x = false) (hit : p it = true) :
    addQtyAtFirst p q (pre ++ it :: post) =
      pre ++ { it with quantity := it.quantity + q } :: post := by
  induction pre with
  | nil => simp [addQtyAtFirst, hit]
  | cons a t ih =>
    have ha : p a = false := hpre a (by simp)
    simp only [List.cons_append, addQtyAtFirst, ha, Bool.false_eq_true, if_false, List.append_eq]
    rw [ih (fun x hx => hpre x (by simp [hx]))]

/-- C5: descriptor normalization in the merge endpoint trims the stored name
(keeping its casing — lowercasing happens only inside the comparison
predicates), defaults the quantity to 1 unless a positive quantity was
supplied, defaults the unit to `"pcs"` when absent, and derives the
completion flag as true exactly when the supplied quantity is non-positive;
and when an existing item matches the incoming one on trimmed-lowercased
name and on unit, that item's quantity is incremented by the incoming
quantity while its name, unit and completion flag — and all other items —
are left unchanged. -/
theorem C5_normalize_and_accumulate :
    (∀ s : String, formatDescriptor (Descriptor.str s) =
      .ok (some ⟨0, jsTrim s, 1, "pcs", false⟩))
    ∧ (∀ (n : String) (q : Option Int) (u : Option String), n ≠ "" →
        formatDescriptor (Descriptor.obj (some n) q u) =
          .ok (some ⟨0, jsTrim n, qtyOrOne q, unitOrPcs u, qtyNonPos q⟩))
    ∧ (∀ v : Int, 0 < v → qtyOrOne (some v) = v)
    ∧ (∀ v : Int, v ≤ 0 → qtyOrOne (some v) = 1)
    ∧ qtyOrOne none = 1
    ∧ unitOrPcs none = "pcs"
    ∧ (∀ v : Int, qtyNonPos (some v) = true ↔ v ≤ 0)
    ∧ qtyNonPos none = false
    ∧ (∀ (pre post : List Item) (cs : List Conflict) (it f : Item) (d : Descriptor),
        formatDescriptor d = .ok (some f) →
        (∀ x ∈ pre,
          ((jsToLower (jsTrim x.name) == jsToLower f.name) && (x.unit == f.unit)) = false) →
        (jsToLower (jsTrim it.name) == jsToLower f.name) = true →
        it.unit = f.unit →
        mergeOne (pre ++ it :: post, cs) d =
          .ok (pre ++ { it with quantity := it.quantity + f.quantity } :: post, cs)) := by
  refine ⟨fun s => rfl, fun n q u hn => ?_, fun v hv => ?_, fun v hv => ?_, rfl, rfl,
    fun v => ?_, rfl, ?_⟩
  · simp [formatDescriptor, hn]
  · simp [qtyOrOne, hv]
  · simp [qtyOrOne, hv.not_lt]
  · simp [qtyNonPos]
  · intro pre post cs it f d hf hpre hit hunit
    have hexact :
        ((jsToLower (jsTrim it.name) == jsToLower f.name) && (it.unit == f.unit)) = true := by
      simp [hit, hunit]
    have hany : ((pre ++ it :: post).any
        (fun x => (jsToLower (jsTrim x.name) == jsToLower f.name) && (x.unit == f.unit))) = true := by
      rw [List.any_append]
      simp only [List.any_cons, hexact, Bool.true_or, Bool.or_true]
    simp only [mergeOne, hf, hany, if_true]
    rw [addQtyAtFirst_append _ _ pre post it hpre hexact]

/-- Witness for C5: concrete normalization (`" Milk "` with quantity −2 and
no unit becomes stored name `"Milk"`, quantity 1, unit `"pcs"`, completed)
and concrete accumulation (`"milk"`+3 onto existing `"MILK"`, flag and
casing untouched, quantity 2+3). -/
theorem C5_normalize_and_accumulate_witness :
    formatDescriptor (Descriptor.obj (some " Milk ") (some (-2)) none) =
      .ok (some ⟨0, jsTrim " Milk ", qtyOrOne (some (-2)), unitOrPcs none, qtyNonPos (some (-2))⟩)
    ∧ qtyOrOne (some 5) = 5
    ∧ qtyOrOne (some (-2)) = 1
    ∧ (qtyNonPos (some (-2)) = true ↔ (-2 : Int) ≤ 0)
    ∧ mergeOne ([] ++ (⟨7, "MILK", 2, "pcs", true⟩ : Item) :: [], [])
        (Descriptor.obj (some "milk") (some 3) none) =
      .ok ([] ++ (⟨7, "MILK", 2 + 3, "pcs", true⟩ : Item) :: [], []) := by
  refine ⟨C5_normalize_and_accumulate.2.1 " Milk " (some (-2)) none (by decide),
    C5_normalize_and_accumulate.2.2.1 5 (by decide),
    C5_normalize_and_accumulate.2.2.2.1 (-2) (by decide),
    C5_normalize_and_accumulate.2.2.2.2.2.2.1 (-2),
    ?_⟩
  have h := C5_normalize_and_accumulate.2.2.2.2.2.2.2.2
    [] [] [] ⟨7, "MILK", 2, "pcs", true⟩ ⟨0, "milk", 3, "pcs", false⟩
    (Descriptor.obj (some "milk") (some 3) none)
    rfl (by simp) (by decide) (by decide)
  exact h

/-- C10 amended: in the merge endpoint, a batch descriptor that is a number
or boolean (`typeof` neither string nor object), or an object without a
truthy `name` property, is silently skipped — no error, no conflict entry,
no mutation — and the batch behaves exactly as if that descriptor were
absent; a `null` descriptor, however, is not skipped: it raises a
`TypeError` that aborts the whole merge.  In list creation, by contrast, a
non-null invalid descriptor aborts the whole request with HTTP 400
(`Invalid item format`), even when every other descriptor is valid. -/
theorem C10_skip_semantics :
    (∀ (acc : List Item × List Conflict) (q : Option Int) (u : Option String),
      mergeOne acc (Descriptor.obj none q u) = Except.ok acc)
    ∧ (∀ (acc : List Item × List Conflict) (q : Option Int) (u : Option String),
      mergeOne acc (Descriptor.obj (some "") q u) = Except.ok acc)
    ∧ (∀ acc : List Item × List Conflict, mergeOne acc Descriptor.other = Except.ok acc)
    ∧ (∀ (acc : List Item × List Conflict) (ds₁ ds₂ : List Descriptor),
      reconcile acc (ds₁ ++ Descriptor.other :: ds₂) = reconcile acc (ds₁ ++ ds₂))
    ∧ (∀ acc : List Item × List Conflict, mergeOne acc Descriptor.nullVal = Except.error ())
    ∧ (∀ (db : DB) (userId categoryId : Nat) (name : String) (newId : Nat)
        (ds₁ ds₂ : List Descriptor), name ≠ "" →
        (∀ d ∈ ds₁, ∃ it, formatItemCreate d = Except.ok it) →
        createListHandler db userId categoryId name (ds₁ ++ Descriptor.other :: ds₂) newId
          = (.invalidFormat, db)) := by
  refine ⟨fun acc q u => rfl, fun acc q u => rfl, fun acc => rfl, ?_, fun acc => rfl, ?_⟩
  · intro acc ds₁ ds₂
    induction ds₁ generalizing acc with
    | nil =>
      cases acc with
      | mk items conflicts => rfl
    | cons a t ih =>
      simp only [List.cons_append, reconcile]
      cases mergeOne acc a with
      | error e => rfl
      | ok acc2 => exact ih acc2
  · intro db userId categoryId name newId ds₁ ds₂ hn hok
    have hmap : formatItemsCreate (ds₁ ++ Descriptor.other :: ds₂) = .error .invalidFormat := by
      induction ds₁ with
      | nil => rfl
      | cons a t ih =>
        obtain ⟨it, hit⟩ := hok a (by simp)
        have iht := ih (fun d hd => hok d (by simp [hd]))
        simp only [formatItemsCreate, List.cons_append, List.mapM_cons, hit] at iht ⊢
        simp only [iht]
        rfl
    have hne : (ds₁ ++ Descriptor.other :: ds₂).isEmpty = false := by
      cases ds₁ <;> rfl
    simp only [createListHandler, hn, hne, Bool.false_eq_true, false_or, if_false, hmap]

/-- Witness for C10 amended: a batch `["Bread", other]` behaves like
`["Bread"]` in the merge loop, and the same batch given to list creation is
rejected whole with `Invalid item format` (HTTP 400). -/
theorem C10_skip_semantics_witness :
    reconcile ([], []) ([Descriptor.str "Bread"] ++ Descriptor.other :: [])
      = reconcile ([], []) ([Descriptor.str "Bread"] ++ [])
    ∧ createListHandler ⟨[], []⟩ 7 1 "Groceries"
        ([Descriptor.str "Bread"] ++ Descriptor.other :: []) 5
      = (.invalidFormat, ⟨[], []⟩) :=
  ⟨C10_skip_semantics.2.2.2.1 ([], []) [Descriptor.str "Bread"] [],
   C10_skip_semantics.2.2.2.2.2 ⟨[], []⟩ 7 1 "Groceries" 5 [Descriptor.str "Bread"] []
     (by decide)
     (fun d hd => by
        simp at hd
        exact ⟨⟨0, "Bread", 1, "pcs", false⟩, by subst hd; rfl⟩)⟩

/-- C6: merging one new-item descriptor with positive quantity `q` into a
list with no items, three times in a row through the merge endpoint, leaves
a single item whose quantity is `3 * q`, with the unit unchanged. -/
theorem C6_merge_thrice (cats : List Category) (row : GroceryList) (n u : String) (q : Int)
    (h0 : row.items = []) (hn : n ≠ "") (hq : 0 < q) :
    ((updateListHandler
      ((updateListHandler
        ((updateListHandler ⟨cats, [row]⟩ row.userId row.id
          [Descriptor.obj (some n) (some q) (some u)]).2) row.userId row.id
        [Descriptor.obj (some n) (some q) (some u)]).2) row.userId row.id
      [Descriptor.obj (some n) (some q) (some u)]).2).lists
    = [{ row with items := [⟨0, jsTrim n, 3 * q, unitOrPcs (some u), false⟩] }] := by
  have hnp : ¬ (q ≤ 0) := by omega
  have hfd : formatDescriptor (Descriptor.obj (some n) (some q) (some u))
      = .ok (some ⟨0, jsTrim n, q, unitOrPcs (some u), false⟩) := by
    simp [formatDescriptor, hn, qtyOrOne, hq, qtyNonPos, hnp]
  have hexact : (jsToLower (jsTrim (jsTrim n)) == jsToLower (jsTrim n)) = true := by
    rw [jsTrim_idem]
    simp
  have hfind : List.find? (fun l => l.id == row.id) [row] = some row := by
    simp [List.find?]
  have hstep1 : updateListHandler ⟨cats, [row]⟩ row.userId row.id
      [Descriptor.obj (some n) (some q) (some u)]
      = (.ok { row with items := [⟨0, jsTrim n, q, unitOrPcs (some u), false⟩] },
         ⟨cats, [{ row with items := [⟨0, jsTrim n, q, unitOrPcs (some u), false⟩] }]⟩) := by
    have hrec : reconcile (row.items, []) [Descriptor.obj (some n) (some q) (some u)]
        = .ok ([⟨0, jsTrim n, q, unitOrPcs (some u), false⟩], []) := by
      rw [h0]
      simp only [reconcile, mergeOne, hfd, List.any_nil, List.find?_nil, Bool.false_eq_true,
        if_false, List.nil_append]
    have hhook : listPreSaveHookOk
        { row with items := [⟨0, jsTrim n, q, unitOrPcs (some u), false⟩] } = true := by
      simp [listPreSaveHookOk, hasDuplicates]
    have hsave : saveList ⟨cats, [row]⟩
        { row with items := [⟨0, jsTrim n, q, unitOrPcs (some u), false⟩] }
        = ⟨cats, [{ row with items := [⟨0, jsTrim n, q, unitOrPcs (some u), false⟩] }]⟩ := by
      simp [saveList]
    simp only [updateListHandler, List.isEmpty_cons, Bool.false_eq_true, if_false, hfind,
      hrec, List.isEmpty_nil, Bool.not_true, hhook, if_true, hsave, eq_self_iff_true]
  have hstep2 : ∀ qq : Int, updateListHandler
      ⟨cats, [{ row with items := [⟨0, jsTrim n, qq, unitOrPcs (some u), false⟩] }]⟩
      row.userId row.id [Descriptor.obj (some n) (some q) (some u)]
      = (.ok { row with items := [⟨0, jsTrim n, qq + q, unitOrPcs (some u), false⟩] },
         ⟨cats, [{ row with items := [⟨0, jsTrim n, qq + q, unitOrPcs (some u), false⟩] }]⟩) := by
    intro qq
    have hfind2 : List.find? (fun l => l.id == row.id)
        [{ row with items := [⟨0, jsTrim n, qq, unitOrPcs (some u), false⟩] }]
        = some { row with items := [⟨0, jsTrim n, qq, unitOrPcs (some u), false⟩] } := by
      simp [List.find?]
    have hrec2 : reconcile ([⟨0, jsTrim n, qq, unitOrPcs (some u), false⟩], [])
        [Descriptor.obj (some n) (some q) (some u)]
        = .ok ([⟨0, jsTrim n, qq + q, unitOrPcs (some u), false⟩], []) := by
      simp only [reconcile, mergeOne, hfd, List.any_cons, List.any_nil, hexact,
        beq_self_eq_true, Bool.and_self, Bool.true_and, Bool.and_true, Bool.or_false,
        if_true, addQtyAtFirst, eq_self_iff_true]
    have hhook2 : listPreSaveHookOk
        { row with items := [⟨0, jsTrim n, qq + q, unitOrPcs (some u), false⟩] } = true := by
      simp [listPreSaveHookOk, hasDuplicates]
    have hsave2 : saveList ⟨cats, [{ row with items := [⟨0, jsTrim n, qq, unitOrPcs (some u), false⟩] }]⟩
        { row with items := [⟨0, jsTrim n, qq + q, unitOrPcs (some u), false⟩] }
        = ⟨cats, [{ row with items := [⟨0, jsTrim n, qq + q, unitOrPcs (some u), false⟩] }]⟩ := by
      simp [saveList]
    simp only [updateListHandler, List.isEmpty_cons, Bool.false_eq_true, if_false, hfind2,
      hrec2, List.isEmpty_nil, Bool.not_true, hhook2, if_true, hsave2, eq_self_iff_true]
  simp only [hstep1]
  simp only [hstep2 q]
  simp only [hstep2 (q + q)]
  have h3 : q + q + q = 3 * q := by ring
  simp [h3]

/-- Witness for C6: merging `{name: " Eggs ", quantity: 2, unit: "doz"}`
three times into an empty list yields a single `"Eggs"` item with quantity
6 and unit `"doz"`. -/
theorem C6_merge_thrice_witness :
    ((updateListHandler
      ((updateListHandler
        ((updateListHandler ⟨[], [⟨1, "L", 1, 7, []⟩]⟩ 7 1
          [Descriptor.obj (some " Eggs ") (some 2) (some "doz")]).2) 7 1
        [Descriptor.obj (some " Eggs ") (some 2) (some "doz")]).2) 7 1
      [Descriptor.obj (some " Eggs ") (some 2) (some "doz")]).2).lists
    = [⟨1, "L", 1, 7, [⟨0, jsTrim " Eggs ", 3 * 2, unitOrPcs (some "doz"), false⟩]⟩] :=
  C6_merge_thrice [] ⟨1, "L", 1, 7, []⟩ " Eggs " "doz" 2 rfl (by decide) (by decide)

end GrocerySaver
